import Mathlib

/-!
# Particle filter of the kidnapped-vehicle project

A shallow embedding of `src/particle_filter.cpp`.

* `double` values are elements of a linearly ordered field `α`; the theorems
  instantiate `α` with the real numbers (exact arithmetic, no rounding).
* The functions of `<math.h>` and the constant `M_PI` are the fields of a
  `MathLib α`; `realMath` is their interpretation over the reals.
* `std::vector` is `List`, `push_back` is `· ++ [x]`, a range-`for` is a
  `List.foldl` (or `List.map` for an in-place update of every element).
* Every value taken from a random engine is an explicit argument: the draws
  of the `n`-th loop iteration are the value of an oracle at `n`.
* Indexing a vector out of bounds has no defined result: `none`.
* A `const` reference argument that can alias a member of the object the call
  writes is a reference value (`IntVectorRef`, `DoubleVectorRef`), read at the
  statement that uses it.
-/

namespace KidnappedVehicle

/-! ## Data model -/

/-- The functions of `<math.h>` used by the filter, and the constant `M_PI`. -/
structure MathLib (α : Type) where
  sin : α → α
  cos : α → α
  exp : α → α
  sqrt : α → α
  pi : α

/-- Interpretation of `<math.h>` over the real numbers. -/
noncomputable def realMath : MathLib ℝ :=
  { sin := Real.sin, cos := Real.cos, exp := Real.exp, sqrt := Real.sqrt, pi := Real.pi }

/-- Modelled from the spec: `struct Particle` is declared in `particle_filter.h`,
which is not part of the sources; the fields are those of the spec's data model
(id, x, y, theta, weight, associations, sense_x, sense_y). -/
structure Particle (α : Type) where
  id : Int
  x : α
  y : α
  theta : α
  weight : α
  associations : List Int
  sense_x : List α
  sense_y : List α

/-- Modelled from the spec: `struct LandmarkObs` is declared in
`helper_functions.h`, which is not part of the sources; a landmark observation
has an id and a position `x`, `y`. -/
structure LandmarkObs (α : Type) where
  id : Int
  x : α
  y : α

/-- Modelled from the spec: `Map::single_landmark_s` is declared in `map.h`,
which is not part of the sources; the field names `id_i`, `x_f`, `y_f` are the
ones `updateWeights` reads. -/
structure single_landmark_s (α : Type) where
  id_i : Int
  x_f : α
  y_f : α

/-- Modelled from the spec: `class Map` is declared in `map.h`, which is not
part of the sources; `updateWeights` reads its `landmark_list`. -/
structure Map (α : Type) where
  landmark_list : List (single_landmark_s α)

/-- Modelled from the spec: `class ParticleFilter` is declared in
`particle_filter.h`, which is not part of the sources; the members are the ones
the member functions of `particle_filter.cpp` read and write. -/
structure ParticleFilter (α : Type) where
  num_particles : Nat
  is_initialized : Bool
  particles : List (Particle α)

/-- Modelled from the spec: the constructor of `ParticleFilter` is in
`particle_filter.h`, which is not part of the sources; a freshly constructed
filter is uninitialised and has an empty population. -/
def fresh {α : Type} : ParticleFilter α :=
  { num_particles := 0, is_initialized := false, particles := [] }

variable {α : Type}

/-- Value of `std::numeric_limits<double>::max()`, the largest finite
`double`: `(2 - 2^(-52)) * 2^1023`. -/
def DBL_MAX [LinearOrderedField α] : α := 2 ^ 1024 - 2 ^ 971

/-- Modelled from the spec: the helper `dist` is defined in
`helper_functions.h`, which is not part of the sources; the spec calls it the
Euclidean distance between `(x1, y1)` and `(x2, y2)`. -/
def dist [LinearOrderedField α] (M : MathLib α) (x1 y1 x2 y2 : α) : α :=
  M.sqrt ((x2 - x1) * (x2 - x1) + (y2 - y1) * (y2 - y1))

/-! ## `ParticleFilter::init` -/

/-- Body of the loop of `init` at iteration `n`, `draw` being the values of
`dist_x(gen)`, `dist_y(gen)`, `dist_theta(gen)` of that iteration. The vectors
of a default-constructed `Particle` are empty. -/
def initParticle [LinearOrderedField α] (n : Nat) (draw : α × α × α) : Particle α :=
  { id := (n : Int), x := draw.1, y := draw.2.1, theta := draw.2.2, weight := 1,
    associations := [], sense_x := [], sense_y := [] }

/-- The function `ParticleFilter::init`. The estimate `x`, `y`, `theta` and the
deviations `std` only parametrise the three normal distributions; what the
distributions return at iteration `n` is `draws n`. -/
def init [LinearOrderedField α] (_x _y _theta : α) (_std : α × α × α)
    (draws : Nat → α × α × α) (pf : ParticleFilter α) : ParticleFilter α :=
  let num_particles := 50
  let particles := (List.range num_particles).foldl
    (fun ps n => ps ++ [initParticle n (draws n)]) pf.particles
  { num_particles := num_particles, is_initialized := true, particles := particles }

/-! ## `ParticleFilter::prediction` -/

/-- Body of the loop of `prediction` for one particle; `noise` holds the values
of `dist_x(gen)`, `dist_y(gen)`, `dist_theta(gen)` drawn for it. Each
assignment reads the particle as the previous assignments left it. -/
def predictParticle [LinearOrderedField α] (M : MathLib α) (delta_t velocity yaw_rate : α)
    (noise : α × α × α) (p : Particle α) : Particle α :=
  let p1 :=
    if |yaw_rate| > 0.0001 then
      let q1 := { p with x := p.x + (velocity / yaw_rate) *
        (M.sin (p.theta + yaw_rate * delta_t) - M.sin p.theta) }
      let q2 := { q1 with y := q1.y + (velocity / yaw_rate) *
        (M.cos q1.theta - M.cos (q1.theta + yaw_rate * delta_t)) }
      { q2 with theta := q2.theta + yaw_rate * delta_t }
    else
      let q1 := { p with x := p.x + velocity * delta_t * M.cos p.theta }
      { q1 with y := q1.y + velocity * delta_t * M.sin q1.theta }
  let p2 := { p1 with x := p1.x + noise.1 }
  let p3 := { p2 with y := p2.y + noise.2.1 }
  { p3 with theta := p3.theta + noise.2.2 }

/-- The function `ParticleFilter::prediction`. The deviations `std_pos` only
parametrise the three normal distributions; the values drawn for the particle
at index `i` are `noise i`. -/
def prediction [LinearOrderedField α] (M : MathLib α) (delta_t : α) (_std_pos : α × α × α)
    (velocity yaw_rate : α) (noise : Nat → α × α × α) (pf : ParticleFilter α) :
    ParticleFilter α :=
  { pf with particles :=
      pf.particles.mapIdx (fun i p => predictParticle M delta_t velocity yaw_rate (noise i) p) }

/-! ## `ParticleFilter::dataAssociation` -/

/-- Inner loop of `dataAssociation` for one observation: the final values of
`min_dist` and `min_id`. In exact arithmetic a distance reaches the initial
`min_dist` only from `DBL_MAX` on; in the program `d` is a `double` and is
already `+inf`, hence not less than `min_dist`, once a squared coordinate
difference overflows (a difference above about `1.34e154`). The two agree for
distances whose squares do not overflow and for distances of at least
`DBL_MAX`; the theorems about the claims whose statement depends on which id is
assigned evaluate `nearest` at such distances only. -/
def nearest [LinearOrderedField α] (M : MathLib α) (predicted : List (LandmarkObs α))
    (obs : LandmarkObs α) : α × Int :=
  predicted.foldl
    (fun (st : α × Int) pred =>
      let d := dist M obs.x obs.y pred.x pred.y
      if d < st.1 then (d, pred.id) else st)
    (DBL_MAX, -1)

/-- The function `ParticleFilter::dataAssociation`: every observation gets the
`min_id` of its inner loop; the result is the vector `observations` after the
call. -/
def dataAssociation [LinearOrderedField α] (M : MathLib α)
    (predicted observations : List (LandmarkObs α)) : List (LandmarkObs α) :=
  observations.map (fun obs => { obs with id := (nearest M predicted obs).2 })

/-! ## `ParticleFilter::updateWeights` -/

/-- First loop of `updateWeights` for the particle `p`: the vector
`in_range_landmarks`. -/
def inRangeLandmarks [LinearOrderedField α] (sensor_range : α) (map_landmarks : Map α)
    (p : Particle α) : List (LandmarkObs α) :=
  map_landmarks.landmark_list.foldl
    (fun acc landmark =>
      if |landmark.x_f - p.x| ≤ sensor_range ∧ |landmark.y_f - p.y| ≤ sensor_range then
        acc ++ [{ id := landmark.id_i, x := landmark.x_f, y := landmark.y_f }]
      else acc)
    []

/-- One observation in the map frame, as the second loop of `updateWeights`
computes it from the pose of `p`. -/
def toMapFrame [LinearOrderedField α] (M : MathLib α) (p : Particle α) (obs : LandmarkObs α) :
    LandmarkObs α :=
  let map_x := p.x + (obs.x * M.cos p.theta) - (obs.y * M.sin p.theta)
  let map_y := p.y + (obs.x * M.sin p.theta) + (obs.y * M.cos p.theta)
  { id := obs.id, x := map_x, y := map_y }

/-- Second loop of `updateWeights` for the particle `p`: the vector
`map_observations`. -/
def transformObservations [LinearOrderedField α] (M : MathLib α) (p : Particle α)
    (observations : List (LandmarkObs α)) : List (LandmarkObs α) :=
  observations.foldl (fun acc obs => acc ++ [toMapFrame M p obs]) []

/-- The factor `norm_factor * exp(-(exp_x + exp_y))` of the weight loop for the
observation `obs` (map frame) and the landmark `l`. -/
def density [LinearOrderedField α] (M : MathLib α) (std_landmark : α × α)
    (obs l : LandmarkObs α) : α :=
  let std_x := std_landmark.1
  let std_y := std_landmark.2
  let norm_factor := 1 / (2 * M.pi * std_x * std_y)
  let exp_x := (obs.x - l.x) * (obs.x - l.x) / (2 * std_x * std_x)
  let exp_y := (obs.y - l.y) * (obs.y - l.y) / (2 * std_y * std_y)
  norm_factor * M.exp (-(exp_x + exp_y))

/-- The weight loop of `updateWeights`: starting from `1.0`, every pair of an
associated observation and an in-range landmark with equal ids multiplies the
weight by its density. -/
def weightLoop [LinearOrderedField α] (M : MathLib α) (std_landmark : α × α)
    (in_range_landmarks map_observations : List (LandmarkObs α)) : α :=
  map_observations.foldl
    (fun w obs =>
      in_range_landmarks.foldl
        (fun w l => if l.id = obs.id then w * density M std_landmark obs l else w) w)
    1

/-- Body of the outer loop of `updateWeights` for one particle. -/
def updateParticle [LinearOrderedField α] (M : MathLib α) (sensor_range : α)
    (std_landmark : α × α) (observations : List (LandmarkObs α)) (map_landmarks : Map α)
    (p : Particle α) : Particle α :=
  let in_range_landmarks := inRangeLandmarks sensor_range map_landmarks p
  let map_observations := transformObservations M p observations
  let map_observations := dataAssociation M in_range_landmarks map_observations
  { p with weight := weightLoop M std_landmark in_range_landmarks map_observations }

/-- The function `ParticleFilter::updateWeights`. -/
def updateWeights [LinearOrderedField α] (M : MathLib α) (sensor_range : α)
    (std_landmark : α × α) (observations : List (LandmarkObs α)) (map_landmarks : Map α)
    (pf : ParticleFilter α) : ParticleFilter α :=
  { pf with particles :=
      pf.particles.map (updateParticle M sensor_range std_landmark observations map_landmarks) }

/-! ## `ParticleFilter::resample` -/

/-- The loop of `resample` that fills `new_particles`: `draws i` is the value of
`dist_w(gen)` at iteration `i`; `particles[k]` with `k` out of bounds has no
defined result. -/
def resampleLoop (particles : List (Particle α)) (draws : Nat → Nat) (n : Nat) :
    Option (List (Particle α)) :=
  (List.range n).foldl
    (fun (acc : Option (List (Particle α))) i =>
      match acc, particles[draws i]? with
      | some new_particles, some p => some (new_particles ++ [p])
      | _, _ => none)
    (some [])

/-- The function `ParticleFilter::resample`. The weights only parametrise the
discrete distribution `dist_w`; what it returns at iteration `i` is `draws i`. -/
def resample (draws : Nat → Nat) (pf : ParticleFilter α) : Option (ParticleFilter α) :=
  (resampleLoop pf.particles draws pf.num_particles).map
    (fun new_particles => { pf with particles := new_particles })

/-! ## `ParticleFilter::SetAssociations` -/

/-- An argument of type `const std::vector<int> &` of `SetAssociations`: a
vector that is no member of the particle, or the particle's own `associations`
(the only `std::vector<int>` member of `Particle`). -/
inductive IntVectorRef where
  | other (v : List Int)
  | own_associations

/-- An argument of type `const std::vector<double> &` of `SetAssociations`: a
vector that is no member of the particle, or the particle's own `sense_x` or
`sense_y`. -/
inductive DoubleVectorRef (α : Type) where
  | other (v : List α)
  | own_sense_x
  | own_sense_y

/-- The vector an `IntVectorRef` denotes while the particle is `particle`. -/
def IntVectorRef.deref (r : IntVectorRef) (particle : Particle α) : List Int :=
  match r with
  | .other v => v
  | .own_associations => particle.associations

/-- The vector a `DoubleVectorRef` denotes while the particle is `particle`. -/
def DoubleVectorRef.deref (r : DoubleVectorRef α) (particle : Particle α) : List α :=
  match r with
  | .other v => v
  | .own_sense_x => particle.sense_x
  | .own_sense_y => particle.sense_y

/-- The function `ParticleFilter::SetAssociations`. The particle is passed by
reference and returned by value: the first component is the caller's particle
after the call, the second the value returned. The three vectors are passed by
const reference, so each assignment reads its argument as the statements before
it left the particle. -/
def SetAssociations (particle : Particle α) (associations : IntVectorRef)
    (sense_x sense_y : DoubleVectorRef α) : Particle α × Particle α :=
  let particle := { particle with associations := [] }
  let particle := { particle with sense_x := [] }
  let particle := { particle with sense_y := [] }
  let particle := { particle with associations := associations.deref particle }
  let particle := { particle with sense_x := sense_x.deref particle }
  let particle := { particle with sense_y := sense_y.deref particle }
  (particle, particle)

/-! ## Sequences of calls -/

/-- One call of the estimation cycle together with its arguments and the
outcome of its random draws. -/
inductive Call (α : Type) where
  | prediction (delta_t : α) (std_pos : α × α × α) (velocity yaw_rate : α)
      (noise : Nat → α × α × α)
  | updateWeights (sensor_range : α) (std_landmark : α × α)
      (observations : List (LandmarkObs α)) (map_landmarks : Map α)
  | resample (draws : Nat → Nat)

/-- Effect of one call on the filter. -/
def step [LinearOrderedField α] (M : MathLib α) (pf : ParticleFilter α) :
    Call α → Option (ParticleFilter α)
  | .prediction delta_t std_pos velocity yaw_rate noise =>
      some (prediction M delta_t std_pos velocity yaw_rate noise pf)
  | .updateWeights sensor_range std_landmark observations map_landmarks =>
      some (updateWeights M sensor_range std_landmark observations map_landmarks pf)
  | .resample draws => resample draws pf

/-- Effect of a sequence of calls, first call first. -/
def run [LinearOrderedField α] (M : MathLib α) (pf : ParticleFilter α) :
    List (Call α) → Option (ParticleFilter α)
  | [] => some pf
  | c :: cs => (step M pf c).bind (fun pf1 => run M pf1 cs)

/-- A draw of `resample` the discrete distribution can return for a population
of `n` particles: at each of the `n` iterations an index below `n`. -/
def validDraws (n : Nat) (draws : Nat → Nat) : Prop :=
  ∀ i, i < n → draws i < n

/-- Every `resample` call of the sequence has draws that are valid for a
population of `n` particles. -/
def validCalls (n : Nat) : List (Call α) → Prop
  | [] => True
  | .resample draws :: cs => validDraws n draws ∧ validCalls n cs
  | _ :: cs => validCalls n cs

/-! ## The density as the spec writes it -/

/-- The bivariate Gaussian density in the words of the spec,
`1/(2π·σx·σy) · exp(−[(Δx)²/(2σx²) + (Δy)²/(2σy²)])`, for the map-frame
observation `(mx, my)` and the landmark position `(lx, ly)`. -/
def specDensity [LinearOrderedField α] (M : MathLib α) (sx sy mx my lx ly : α) : α :=
  1 / (2 * M.pi * sx * sy) *
    M.exp (-((mx - lx) ^ 2 / (2 * sx ^ 2) + (my - ly) ^ 2 / (2 * sy ^ 2)))

/-! ## Auxiliary facts about the loops -/

theorem foldl_push_back {β γ : Type} (f : β → γ) (l : List β) (acc : List γ) :
    l.foldl (fun acc b => acc ++ [f b]) acc = acc ++ l.map f := by
  induction l generalizing acc with
  | nil => simp
  | cons b bs ih => simp [ih]

theorem foldl_push_back_if {β γ : Type} (P : β → Prop) [DecidablePred P] (f : β → γ)
    (l : List β) (acc : List γ) :
    l.foldl (fun acc b => if P b then acc ++ [f b] else acc) acc
      = acc ++ (l.filter (fun b => decide (P b))).map f := by
  induction l generalizing acc with
  | nil => simp
  | cons b bs ih =>
    by_cases h : P b <;> simp [ih, h]

theorem init_particles [LinearOrderedField α] (x y theta : α) (std : α × α × α)
    (draws : Nat → α × α × α) (pf : ParticleFilter α) :
    (init x y theta std draws pf).particles
      = pf.particles ++ (List.range 50).map (fun n => initParticle n (draws n)) := by
  simp only [init]
  exact foldl_push_back (fun n => initParticle n (draws n)) (List.range 50) pf.particles

theorem resampleLoop_spec (particles : List (Particle α)) (draws : Nat → Nat) (n : Nat)
    (h : ∀ i, i < n → draws i < particles.length) :
    ∃ ps, resampleLoop particles draws n = some ps ∧ ps.length = n ∧
      ∀ k, k < n → ps[k]? = particles[draws k]? := by
  induction n with
  | zero => exact ⟨[], by simp [resampleLoop], rfl, by intro k hk; omega⟩
  | succ n ih =>
    obtain ⟨ps, hps, hlen, hget⟩ := ih (fun i hi => h i (Nat.lt_succ_of_lt hi))
    have hn : draws n < particles.length := h n (Nat.lt_succ_self n)
    refine ⟨ps ++ [particles[draws n]], ?_, by simp [hlen], ?_⟩
    · unfold resampleLoop at hps ⊢
      rw [List.range_succ, List.foldl_append, hps]
      simp [List.getElem?_eq_getElem hn]
    · intro k hk
      rcases Nat.lt_succ_iff_lt_or_eq.mp hk with hlt | rfl
      · rw [List.getElem?_append_left (by omega)]
        exact hget k hlt
      · rw [List.getElem?_append_right (by omega)]
        simp [hlen, List.getElem?_eq_getElem hn]

theorem prediction_length [LinearOrderedField α] (M : MathLib α) (delta_t : α)
    (std_pos : α × α × α) (velocity yaw_rate : α) (noise : Nat → α × α × α)
    (pf : ParticleFilter α) :
    (prediction M delta_t std_pos velocity yaw_rate noise pf).particles.length
      = pf.particles.length := by
  simp [prediction]

theorem updateWeights_length [LinearOrderedField α] (M : MathLib α) (sensor_range : α)
    (std_landmark : α × α) (observations : List (LandmarkObs α)) (map_landmarks : Map α)
    (pf : ParticleFilter α) :
    (updateWeights M sensor_range std_landmark observations map_landmarks pf).particles.length
      = pf.particles.length := by
  simp [updateWeights]

theorem updateWeights_getElem? [LinearOrderedField α] (M : MathLib α) (sensor_range : α)
    (std_landmark : α × α) (observations : List (LandmarkObs α)) (map_landmarks : Map α)
    (pf : ParticleFilter α) (i : Nat) :
    (updateWeights M sensor_range std_landmark observations map_landmarks pf).particles[i]?
      = (pf.particles[i]?).map
          (updateParticle M sensor_range std_landmark observations map_landmarks) := by
  simp [updateWeights]

theorem run_preserves_population [LinearOrderedField α] (M : MathLib α) (n : Nat)
    (calls : List (Call α)) (pf : ParticleFilter α) (hnum : pf.num_particles = n)
    (hlen : pf.particles.length = n) (hv : validCalls n calls) :
    ∃ pf1, run M pf calls = some pf1 ∧ pf1.num_particles = n ∧ pf1.particles.length = n := by
  induction calls generalizing pf with
  | nil => exact ⟨pf, rfl, hnum, hlen⟩
  | cons c cs ih =>
    cases c with
    | prediction delta_t std_pos velocity yaw_rate noise =>
      simp only [run, step, Option.some_bind]
      exact ih _ (by simpa [prediction] using hnum)
        (by rw [prediction_length]; exact hlen) hv
    | updateWeights sensor_range std_landmark observations map_landmarks =>
      simp only [run, step, Option.some_bind]
      exact ih _ (by simpa [updateWeights] using hnum)
        (by rw [updateWeights_length]; exact hlen) hv
    | resample draws =>
      obtain ⟨hd, hcs⟩ := hv
      obtain ⟨ps, hps, hpl, -⟩ := resampleLoop_spec pf.particles draws n
        (fun i hi => by rw [hlen]; exact hd i hi)
      simp only [run, step, resample, hnum, hps, Option.map_some', Option.some_bind]
      exact ih _ rfl hpl hcs

theorem init_fresh_length [LinearOrderedField α] (x y theta : α) (std : α × α × α)
    (draws : Nat → α × α × α) :
    (init x y theta std draws fresh).particles.length = 50 := by
  rw [init_particles]; simp [fresh]

theorem inRangeLandmarks_eq [LinearOrderedField α] (sensor_range : α) (map_landmarks : Map α)
    (p : Particle α) :
    inRangeLandmarks sensor_range map_landmarks p
      = (map_landmarks.landmark_list.filter (fun l =>
            decide (|l.x_f - p.x| ≤ sensor_range ∧ |l.y_f - p.y| ≤ sensor_range))).map
          (fun l => { id := l.id_i, x := l.x_f, y := l.y_f }) := by
  unfold inRangeLandmarks
  rw [foldl_push_back_if (fun l : single_landmark_s α =>
      |l.x_f - p.x| ≤ sensor_range ∧ |l.y_f - p.y| ≤ sensor_range)
    (fun l => ({ id := l.id_i, x := l.x_f, y := l.y_f } : LandmarkObs α))]
  simp

theorem transformObservations_eq [LinearOrderedField α] (M : MathLib α) (p : Particle α)
    (observations : List (LandmarkObs α)) :
    transformObservations M p observations = observations.map (toMapFrame M p) := by
  unfold transformObservations
  rw [foldl_push_back]
  simp

/-- Invariant of the inner loop of `dataAssociation`, started from `(d0, i0)`:
either no candidate was closer than `d0` and the state is unchanged, or the
state holds the distance and id of a candidate closer than `d0` that is nearest
among all candidates. -/
theorem nearest_fold_spec [LinearOrderedField α] (M : MathLib α) (obs : LandmarkObs α)
    (predicted : List (LandmarkObs α)) (d0 : α) (i0 : Int) :
    (predicted.foldl
        (fun (st : α × Int) pred =>
          let d := dist M obs.x obs.y pred.x pred.y
          if d < st.1 then (d, pred.id) else st) (d0, i0) = (d0, i0) ∧
      ∀ c ∈ predicted, ¬ dist M obs.x obs.y c.x c.y < d0) ∨
    (∃ c ∈ predicted,
      predicted.foldl
        (fun (st : α × Int) pred =>
          let d := dist M obs.x obs.y pred.x pred.y
          if d < st.1 then (d, pred.id) else st) (d0, i0)
        = (dist M obs.x obs.y c.x c.y, c.id) ∧
      dist M obs.x obs.y c.x c.y < d0 ∧
      ∀ c1 ∈ predicted, dist M obs.x obs.y c.x c.y ≤ dist M obs.x obs.y c1.x c1.y) := by
  induction predicted generalizing d0 i0 with
  | nil => left; simp
  | cons a as ih =>
    simp only [List.foldl_cons]
    by_cases h : dist M obs.x obs.y a.x a.y < d0
    · simp only [h, if_true]
      right
      rcases ih (dist M obs.x obs.y a.x a.y) a.id with ⟨heq, hno⟩ | ⟨c, hc, heq, hlt, hmin⟩
      · refine ⟨a, List.mem_cons_self _ _, heq, h, ?_⟩
        intro c1 hc1
        rcases List.mem_cons.mp hc1 with rfl | hc1
        · exact le_refl _
        · exact not_lt.mp (hno c1 hc1)
      · refine ⟨c, List.mem_cons_of_mem _ hc, heq, lt_trans hlt h, ?_⟩
        intro c1 hc1
        rcases List.mem_cons.mp hc1 with rfl | hc1
        · exact le_of_lt hlt
        · exact hmin c1 hc1
    · simp only [h, if_false]
      rcases ih d0 i0 with ⟨heq, hno⟩ | ⟨c, hc, heq, hlt, hmin⟩
      · left
        refine ⟨heq, ?_⟩
        intro c1 hc1
        rcases List.mem_cons.mp hc1 with rfl | hc1
        · exact h
        · exact hno c1 hc1
      · right
        refine ⟨c, List.mem_cons_of_mem _ hc, heq, hlt, ?_⟩
        intro c1 hc1
        rcases List.mem_cons.mp hc1 with rfl | hc1
        · exact le_of_lt (lt_of_lt_of_le hlt (not_lt.mp h))
        · exact hmin c1 hc1

theorem nearest_found [LinearOrderedField α] (M : MathLib α) (obs : LandmarkObs α)
    (predicted : List (LandmarkObs α))
    (h : ∃ c ∈ predicted, dist M obs.x obs.y c.x c.y < DBL_MAX) :
    ∃ c ∈ predicted, nearest M predicted obs = (dist M obs.x obs.y c.x c.y, c.id) ∧
      ∀ c1 ∈ predicted, dist M obs.x obs.y c.x c.y ≤ dist M obs.x obs.y c1.x c1.y := by
  rcases nearest_fold_spec M obs predicted DBL_MAX (-1) with ⟨-, hno⟩ | ⟨c, hc, heq, -, hmin⟩
  · obtain ⟨c, hc, hlt⟩ := h
    exact absurd hlt (hno c hc)
  · exact ⟨c, hc, heq, hmin⟩

theorem nearest_none [LinearOrderedField α] (M : MathLib α) (obs : LandmarkObs α)
    (predicted : List (LandmarkObs α))
    (h : ∀ c ∈ predicted, ¬ dist M obs.x obs.y c.x c.y < DBL_MAX) :
    nearest M predicted obs = (DBL_MAX, -1) := by
  rcases nearest_fold_spec M obs predicted DBL_MAX (-1) with ⟨heq, -⟩ | ⟨c, hc, -, hlt, -⟩
  · exact heq
  · exact absurd hlt (h c hc)

theorem inner_fold_eq [LinearOrderedField α] (f : LandmarkObs α → α) (id0 : Int)
    (cands : List (LandmarkObs α)) (w : α) :
    cands.foldl (fun w l => if l.id = id0 then w * f l else w) w
      = w * ((cands.filter (fun l => decide (l.id = id0))).map f).prod := by
  induction cands generalizing w with
  | nil => simp
  | cons a as ih =>
    by_cases h : a.id = id0 <;> simp [ih, h, mul_assoc]

theorem weightLoop_eq [LinearOrderedField α] (M : MathLib α) (std_landmark : α × α)
    (cands mobs : List (LandmarkObs α)) :
    weightLoop M std_landmark cands mobs
      = (mobs.map (fun o =>
          ((cands.filter (fun l => decide (l.id = o.id))).map
            (density M std_landmark o)).prod)).prod := by
  have key : ∀ (w : α),
      mobs.foldl
        (fun w obs =>
          cands.foldl
            (fun w l => if l.id = obs.id then w * density M std_landmark obs l else w) w) w
        = w * (mobs.map (fun o =>
          ((cands.filter (fun l => decide (l.id = o.id))).map
            (density M std_landmark o)).prod)).prod := by
    induction mobs with
    | nil => intro w; simp
    | cons o os ih =>
      intro w
      simp only [List.foldl_cons, List.map_cons, List.prod_cons]
      rw [ih, inner_fold_eq, mul_assoc]
  unfold weightLoop
  rw [key 1, one_mul]

theorem filter_id_singleton {α : Type} (cands : List (LandmarkObs α))
    (h : (cands.map (fun l => l.id)).Nodup) (c : LandmarkObs α) (hc : c ∈ cands) :
    cands.filter (fun l => decide (l.id = c.id)) = [c] := by
  induction cands with
  | nil => cases hc
  | cons a as ih =>
    rw [List.map_cons, List.nodup_cons] at h
    obtain ⟨hna, hnd⟩ := h
    rcases List.mem_cons.mp hc with rfl | hc1
    · have : as.filter (fun l => decide (l.id = c.id)) = [] := by
        rw [List.filter_eq_nil_iff]
        intro l hl hid
        exact hna (List.mem_map.mpr ⟨l, hl, of_decide_eq_true hid⟩)
      simp [List.filter_cons, this]
    · have hne : a.id ≠ c.id := by
        intro heq
        exact hna (List.mem_map.mpr ⟨c, hc1, heq.symm⟩)
      simp [List.filter_cons, hne, ih hnd hc1]

theorem updateParticle_idem [LinearOrderedField α] (M : MathLib α) (sensor_range : α)
    (std_landmark : α × α) (observations : List (LandmarkObs α)) (map_landmarks : Map α)
    (p : Particle α) :
    updateParticle M sensor_range std_landmark observations map_landmarks
        (updateParticle M sensor_range std_landmark observations map_landmarks p)
      = updateParticle M sensor_range std_landmark observations map_landmarks p := rfl

theorem density_eq_specDensity [LinearOrderedField α] (M : MathLib α) (std_landmark : α × α)
    (o l : LandmarkObs α) :
    density M std_landmark o l
      = specDensity M std_landmark.1 std_landmark.2 o.x o.y l.x l.y := by
  simp only [density, specDensity, sq, mul_assoc]

/-- The weight loop after `dataAssociation`, when the ids of the candidates are
pairwise distinct and `pick m` is the candidate whose id the association gives
to `m`: one density factor per observation. -/
theorem weightLoop_dataAssociation [LinearOrderedField α] (M : MathLib α)
    (std_landmark : α × α) (cands ms : List (LandmarkObs α))
    (hid : (cands.map (fun l => l.id)).Nodup) (pick : LandmarkObs α → LandmarkObs α)
    (hpick : ∀ m ∈ ms, pick m ∈ cands ∧ (nearest M cands m).2 = (pick m).id) :
    weightLoop M std_landmark cands (dataAssociation M cands ms)
      = (ms.map (fun m => density M std_landmark m (pick m))).prod := by
  rw [weightLoop_eq]
  unfold dataAssociation
  rw [List.map_map]
  congr 1
  apply List.map_congr_left
  intro m hm
  obtain ⟨hmem, hidm⟩ := hpick m hm
  simp only [Function.comp, hidm, filter_id_singleton cands hid (pick m) hmem,
    List.map_cons, List.map_nil, List.prod_cons, List.prod_nil, mul_one]
  rfl

/-- When every observation of `ms` has a candidate closer than `DBL_MAX`, the
inner loop of `dataAssociation` ends, for each of them, on a nearest candidate. -/
theorem exists_pick [LinearOrderedField α] (M : MathLib α) (cands ms : List (LandmarkObs α))
    (hnear : ∀ m ∈ ms, ∃ c ∈ cands, dist M m.x m.y c.x c.y < DBL_MAX) :
    ∃ pick : LandmarkObs α → LandmarkObs α, ∀ m ∈ ms,
      pick m ∈ cands ∧
      nearest M cands m = (dist M m.x m.y (pick m).x (pick m).y, (pick m).id) ∧
      ∀ c1 ∈ cands, dist M m.x m.y (pick m).x (pick m).y ≤ dist M m.x m.y c1.x c1.y := by
  classical
  refine ⟨fun m =>
    if h : ∃ c, c ∈ cands ∧ nearest M cands m = (dist M m.x m.y c.x c.y, c.id) ∧
        ∀ c1 ∈ cands, dist M m.x m.y c.x c.y ≤ dist M m.x m.y c1.x c1.y
    then h.choose else m, ?_⟩
  intro m hm
  have h := nearest_found M m cands (hnear m hm)
  simp only [dif_pos h]
  exact h.choose_spec

/-! ## Initialisation, population size and resampling -/

/-- C4: `init` on a freshly constructed filter leaves, for every estimate, every
`std` and every outcome of the draws, exactly `num_particles = 50` particles, all
of weight `1`, the particle at index `i` having id `i` (so the ids are pairwise
distinct), and sets `is_initialized`. -/
theorem C4_init_population (x y theta : ℝ) (std : ℝ × ℝ × ℝ)
    (draws : Nat → ℝ × ℝ × ℝ) :
    (init x y theta std draws fresh).num_particles = 50 ∧
    (init x y theta std draws fresh).particles.length = 50 ∧
    (∀ p ∈ (init x y theta std draws fresh).particles, p.weight = 1) ∧
    (∀ i : Nat, i < 50 →
      ((init x y theta std draws fresh).particles[i]?).map (fun p => p.id) = some (i : Int)) ∧
    ((init x y theta std draws fresh).particles.map (fun p => p.id)).Nodup ∧
    (init x y theta std draws fresh).is_initialized = true := by
  have hp : (init x y theta std draws fresh).particles
      = (List.range 50).map (fun n => initParticle n (draws n)) := by
    rw [init_particles]; rfl
  refine ⟨rfl, by simp [hp], ?_, ?_, ?_, rfl⟩
  · intro p hmem
    rw [hp] at hmem
    obtain ⟨n, -, rfl⟩ := List.mem_map.mp hmem
    rfl
  · intro i hi
    rw [hp]
    simp [List.getElem?_map, List.getElem?_range hi, initParticle]
  · rw [hp, List.map_map]
    have : ((fun p : Particle ℝ => p.id) ∘ fun n => initParticle n (draws n))
        = fun n : Nat => (n : Int) := rfl
    rw [this]
    exact (List.nodup_range 50).map Nat.cast_injective

/-- C5: starting from the state `init` produces on a fresh filter, every finite
sequence of `prediction`, `updateWeights` and `resample` calls (any arguments,
any noise, any draws the discrete distribution can return for 50 particles) runs
to a state whose population has exactly `num_particles = 50` particles. -/
theorem C5_population_cardinality (x y theta : ℝ) (std : ℝ × ℝ × ℝ)
    (draws : Nat → ℝ × ℝ × ℝ) (calls : List (Call ℝ)) (hv : validCalls 50 calls) :
    ∃ pf, run realMath (init x y theta std draws fresh) calls = some pf ∧
      pf.num_particles = 50 ∧ pf.particles.length = 50 :=
  run_preserves_population realMath 50 calls (init x y theta std draws fresh) rfl
    (init_fresh_length x y theta std draws) hv

/-- Witness of C5: one cycle `prediction`, `updateWeights`, `resample` (the
draw of iteration `i` being `i`) after `init`. -/
theorem C5_population_cardinality_witness :
    validCalls 50
        [Call.prediction (1 : ℝ) (0, 0, 0) 1 0 (fun _ => (0, 0, 0)),
         Call.updateWeights 5 (1, 1) [] { landmark_list := [] },
         Call.resample (fun i => i)] ∧
      ∃ pf, run realMath (init 0 0 0 (1, 1, 1) (fun _ => (0, 0, 0)) fresh)
          [Call.prediction (1 : ℝ) (0, 0, 0) 1 0 (fun _ => (0, 0, 0)),
           Call.updateWeights 5 (1, 1) [] { landmark_list := [] },
           Call.resample (fun i => i)] = some pf ∧
        pf.num_particles = 50 ∧ pf.particles.length = 50 :=
  have hv : validCalls 50
      [Call.prediction (1 : ℝ) (0, 0, 0) 1 0 (fun _ => (0, 0, 0)),
       Call.updateWeights 5 (1, 1) [] { landmark_list := [] },
       Call.resample (fun i => i)] := ⟨fun _ hi => hi, trivial⟩
  ⟨hv, C5_population_cardinality 0 0 0 (1, 1, 1) (fun _ => (0, 0, 0)) _ hv⟩

/-- C6: `resample` on a population of size `num_particles`, the draws being
valid indices into it, returns a population of the same size whose `k`-th
particle is the old particle at the `k`-th drawn index (equal in every field);
hence every particle, and every pose, of the new generation is one of the prior
generation. -/
theorem C6_resample_copies (pf : ParticleFilter ℝ) (draws : Nat → Nat)
    (hsize : pf.particles.length = pf.num_particles)
    (hd : validDraws pf.num_particles draws) :
    ∃ pf1, resample draws pf = some pf1 ∧
      pf1.particles.length = pf.num_particles ∧
      (∀ k, k < pf.num_particles → pf1.particles[k]? = pf.particles[draws k]?) ∧
      (∀ q ∈ pf1.particles, q ∈ pf.particles) := by
  obtain ⟨ps, hps, hlen, hget⟩ := resampleLoop_spec pf.particles draws pf.num_particles
    (fun i hi => by rw [hsize]; exact hd i hi)
  refine ⟨{ pf with particles := ps }, by simp [resample, hps], hlen, hget, ?_⟩
  intro q hq
  obtain ⟨k, hk, hqk⟩ := List.mem_iff_getElem.mp hq
  have hk1 : k < pf.num_particles := by simpa [hlen] using hk
  have h1 : ps[k]? = some q := by rw [List.getElem?_eq_getElem hk, hqk]
  rw [hget k hk1] at h1
  exact List.getElem?_mem h1

/-- Witness of C6: a population of two particles, both draws returning index 1. -/
theorem C6_resample_copies_witness :
    validDraws 2 (fun _ => 1) ∧
      ∃ pf1, resample (fun _ => 1)
          ({ num_particles := 2, is_initialized := true,
             particles := [⟨0, 1, 2, 3, 4, [], [], []⟩, ⟨1, 5, 6, 7, 8, [9], [10], [11]⟩] } :
            ParticleFilter ℝ) = some pf1 ∧
        pf1.particles.length = 2 ∧
        (∀ k, k < 2 → pf1.particles[k]?
          = ([⟨0, 1, 2, 3, 4, [], [], []⟩, ⟨1, 5, 6, 7, 8, [9], [10], [11]⟩] :
              List (Particle ℝ))[(fun _ : Nat => 1) k]?) ∧
        (∀ q ∈ pf1.particles,
          q ∈ ([⟨0, 1, 2, 3, 4, [], [], []⟩, ⟨1, 5, 6, 7, 8, [9], [10], [11]⟩] :
              List (Particle ℝ))) :=
  ⟨fun _ _ => Nat.one_lt_two,
   C6_resample_copies
     { num_particles := 2, is_initialized := true,
       particles := [⟨0, 1, 2, 3, 4, [], [], []⟩, ⟨1, 5, 6, 7, 8, [9], [10], [11]⟩] }
     (fun _ => 1) rfl (fun _ _ => Nat.one_lt_two)⟩

/-! ## Motion model -/

/-- C3: `prediction` moves the particle at index `i`, whose noise draws are
`noise i = (nx, ny, nt)`, from `(x, y, theta)` to
`x + (v/w)*(sin(theta + w*dt) - sin(theta)) + nx`,
`y + (v/w)*(cos(theta) - cos(theta + w*dt)) + ny`, `theta + w*dt + nt` when
`|w| > 0.0001`, and to `x + v*dt*cos(theta) + nx`, `y + v*dt*sin(theta) + ny`,
`theta + nt` otherwise: the kinematic step reads the heading before the noise,
and the noise is added after it. -/
theorem C3_prediction_pose (pf : ParticleFilter ℝ) (delta_t : ℝ) (std_pos : ℝ × ℝ × ℝ)
    (velocity yaw_rate : ℝ) (noise : Nat → ℝ × ℝ × ℝ) (i : Nat) (p : Particle ℝ)
    (hp : pf.particles[i]? = some p) :
    ∃ q, (prediction realMath delta_t std_pos velocity yaw_rate noise pf).particles[i]?
        = some q ∧
      (|yaw_rate| > 0.0001 →
        q.x = p.x + (velocity / yaw_rate) *
            (Real.sin (p.theta + yaw_rate * delta_t) - Real.sin p.theta) + (noise i).1 ∧
        q.y = p.y + (velocity / yaw_rate) *
            (Real.cos p.theta - Real.cos (p.theta + yaw_rate * delta_t)) + (noise i).2.1 ∧
        q.theta = p.theta + yaw_rate * delta_t + (noise i).2.2) ∧
      (¬ |yaw_rate| > 0.0001 →
        q.x = p.x + velocity * delta_t * Real.cos p.theta + (noise i).1 ∧
        q.y = p.y + velocity * delta_t * Real.sin p.theta + (noise i).2.1 ∧
        q.theta = p.theta + (noise i).2.2) := by
  refine ⟨predictParticle realMath delta_t velocity yaw_rate (noise i) p, ?_, ?_, ?_⟩
  · simp [prediction, List.getElem?_mapIdx, hp]
  · intro h
    simp [predictParticle, h, realMath]
  · intro h
    simp [predictParticle, h, realMath]

/-- Witness of C3: with zero noise, the particle `(0, 0, 0)`, `v = 1` and
`dt = 1`, the yaw rate `0` yields exactly `(1, 0, 0)` and the yaw rate `pi/2`
yields `(2/pi, 2/pi, pi/2)`. -/
theorem C3_prediction_pose_witness :
    (∃ q, (prediction realMath 1 (0, 0, 0) 1 0 (fun _ => (0, 0, 0))
          { num_particles := 1, is_initialized := true,
            particles := [⟨0, 0, 0, 0, 1, [], [], []⟩] }).particles[0]? = some q ∧
        q.x = 1 ∧ q.y = 0 ∧ q.theta = 0) ∧
    (∃ q, (prediction realMath 1 (0, 0, 0) 1 (Real.pi / 2) (fun _ => (0, 0, 0))
          { num_particles := 1, is_initialized := true,
            particles := [⟨0, 0, 0, 0, 1, [], [], []⟩] }).particles[0]? = some q ∧
        q.x = 2 / Real.pi ∧ q.y = 2 / Real.pi ∧ q.theta = Real.pi / 2) := by
  constructor
  · obtain ⟨q, hq, -, h0⟩ := C3_prediction_pose
      { num_particles := 1, is_initialized := true,
        particles := [⟨0, 0, 0, 0, 1, [], [], []⟩] }
      1 (0, 0, 0) 1 0 (fun _ => (0, 0, 0)) 0 ⟨0, 0, 0, 0, 1, [], [], []⟩ rfl
    have hw : ¬ |(0 : ℝ)| > 0.0001 := by norm_num
    obtain ⟨hx, hy, ht⟩ := h0 hw
    exact ⟨q, hq, by simpa using hx, by simpa using hy, by simpa using ht⟩
  · obtain ⟨q, hq, h1, -⟩ := C3_prediction_pose
      { num_particles := 1, is_initialized := true,
        particles := [⟨0, 0, 0, 0, 1, [], [], []⟩] }
      1 (0, 0, 0) 1 (Real.pi / 2) (fun _ => (0, 0, 0)) 0 ⟨0, 0, 0, 0, 1, [], [], []⟩ rfl
    have hw : |Real.pi / 2| > 0.0001 := by
      rw [abs_of_pos (by positivity)]
      have := Real.pi_gt_three
      norm_num
      linarith
    obtain ⟨hx, hy, ht⟩ := h1 hw
    refine ⟨q, hq, ?_, ?_, ?_⟩
    · rw [hx]; simp
    · rw [hy]; simp
    · rw [ht]; simp

/-! ## Data association -/

theorem DBL_MAX_pos : (0 : ℝ) < DBL_MAX := by
  unfold DBL_MAX
  norm_num

/-- An observation at `(D, D)` is at least `D` away from the origin. -/
theorem far_corner_not_lt (D : ℝ) (hD : 0 ≤ D) : ¬ dist realMath D D 0 0 < D := by
  have h : D ≤ Real.sqrt ((0 - D) * (0 - D) + (0 - D) * (0 - D)) := by
    rw [Real.le_sqrt hD (by nlinarith)]
    nlinarith
  simpa [dist, realMath] using h

/-- The data-association example of the spec: the candidates `(id=1, 0, 0)`,
`(id=2, 10, 10)` and the observation `(1, 1)`; the id assigned is 1. -/
theorem dataAssociation_spec_example :
    (dataAssociation realMath [⟨1, 0, 0⟩, ⟨2, 10, 10⟩] [⟨0, 1, 1⟩]).map (fun r => r.id)
      = [1] := by
  have hfirst : dist realMath 1 1 0 0 < DBL_MAX := by
    have h2 : Real.sqrt ((0 - 1) * (0 - 1) + (0 - 1) * (0 - 1)) < 2 := by
      rw [Real.sqrt_lt' (by norm_num)]
      norm_num
    have h3 : (2 : ℝ) < DBL_MAX := by
      unfold DBL_MAX
      norm_num
    exact lt_trans (by simpa [dist, realMath] using h2) h3
  have hsecond : ¬ dist realMath 1 1 10 10 ≤ dist realMath 1 1 0 0 := by
    rw [not_le]
    have : Real.sqrt ((0 - 1) * (0 - 1) + (0 - 1) * (0 - 1))
        < Real.sqrt ((10 - 1) * (10 - 1) + (10 - 1) * (10 - 1)) :=
      Real.sqrt_lt_sqrt (by norm_num) (by norm_num)
    simpa [dist, realMath] using this
  obtain ⟨c, hc, heq, hmin⟩ := nearest_found realMath ⟨0, 1, 1⟩ [⟨1, 0, 0⟩, ⟨2, 10, 10⟩]
    ⟨⟨1, 0, 0⟩, by simp, hfirst⟩
  simp only [List.mem_cons, List.mem_singleton, List.not_mem_nil, or_false] at hc
  rcases hc with rfl | rfl
  · simp [dataAssociation, heq]
  · exact absurd (hmin ⟨1, 0, 0⟩ (by simp)) hsecond

/-- C2, evaluated where the code departs from it: the candidate list
`[(id=1, 0, 0)]` is not empty, the observation `(DBL_MAX, DBL_MAX)` is not
closer to its only candidate than the initial `min_dist`, and the id assigned
is `-1`, the id of no candidate, where the nearest candidate has id `1`. -/
theorem C2_sentinel_failing_input :
    ([⟨1, 0, 0⟩] : List (LandmarkObs ℝ)) ≠ [] ∧
    dataAssociation realMath [⟨1, 0, 0⟩] [⟨0, DBL_MAX, DBL_MAX⟩]
      = [⟨-1, DBL_MAX, DBL_MAX⟩] ∧
    ¬ ∃ c ∈ ([⟨1, 0, 0⟩] : List (LandmarkObs ℝ)), c.id = -1 := by
  refine ⟨by simp, ?_, by simp⟩
  have h := nearest_none realMath ⟨0, DBL_MAX, DBL_MAX⟩ [⟨1, 0, 0⟩] (by
    intro c hc
    rw [List.mem_singleton] at hc
    subst hc
    exact far_corner_not_lt DBL_MAX (le_of_lt DBL_MAX_pos))
  simp [dataAssociation, h]

/-! ## Weight update -/

/-- C7: a particle for which no map landmark passes the range gate (the empty
map included) has weight exactly `1` after `updateWeights`, whatever the
observations and its previous weight; its other fields are unchanged. -/
theorem C7_no_landmark_in_range (pf : ParticleFilter ℝ) (sensor_range : ℝ)
    (std_landmark : ℝ × ℝ) (observations : List (LandmarkObs ℝ)) (map_landmarks : Map ℝ)
    (i : Nat) (p : Particle ℝ) (hp : pf.particles[i]? = some p)
    (hgate : ∀ l ∈ map_landmarks.landmark_list,
      ¬ (|l.x_f - p.x| ≤ sensor_range ∧ |l.y_f - p.y| ≤ sensor_range)) :
    (updateWeights realMath sensor_range std_landmark observations map_landmarks
        pf).particles[i]? = some { p with weight := 1 } := by
  have hnil : inRangeLandmarks sensor_range map_landmarks p = [] := by
    rw [inRangeLandmarks_eq, List.map_eq_nil_iff, List.filter_eq_nil_iff]
    intro l hl hd
    exact hgate l hl (of_decide_eq_true hd)
  rw [updateWeights_getElem?, hp, Option.map_some']
  simp only [updateParticle, hnil, weightLoop_eq]
  simp

/-- Witness of C7: the particle `(0, 0, 0)` of previous weight `7`, sensor range
`1`, the only landmark at `(5, 5)` and one observation. -/
theorem C7_no_landmark_in_range_witness :
    (updateWeights realMath 1 (1, 1) [⟨0, 2, 3⟩] { landmark_list := [⟨1, 5, 5⟩] }
        { num_particles := 1, is_initialized := true,
          particles := [⟨0, 0, 0, 0, 7, [], [], []⟩] }).particles[0]?
      = some ⟨0, 0, 0, 0, 1, [], [], []⟩ :=
  C7_no_landmark_in_range
    { num_particles := 1, is_initialized := true,
      particles := [⟨0, 0, 0, 0, 7, [], [], []⟩] }
    1 (1, 1) [⟨0, 2, 3⟩] { landmark_list := [⟨1, 5, 5⟩] } 0 ⟨0, 0, 0, 0, 7, [], [], []⟩ rfl
    (by
      intro l hl
      rw [List.mem_singleton] at hl
      subst hl
      norm_num)

/-- C8: `updateWeights` called twice in a row with the same arguments leaves the
same population (hence the same weights) as one call. -/
theorem C8_updateWeights_idempotent (pf : ParticleFilter ℝ) (sensor_range : ℝ)
    (std_landmark : ℝ × ℝ) (observations : List (LandmarkObs ℝ)) (map_landmarks : Map ℝ) :
    updateWeights realMath sensor_range std_landmark observations map_landmarks
        (updateWeights realMath sensor_range std_landmark observations map_landmarks pf)
      = updateWeights realMath sensor_range std_landmark observations map_landmarks pf := by
  have h : updateParticle realMath sensor_range std_landmark observations map_landmarks ∘
      updateParticle realMath sensor_range std_landmark observations map_landmarks
        = updateParticle realMath sensor_range std_landmark observations map_landmarks :=
    funext (updateParticle_idem realMath sensor_range std_landmark observations map_landmarks)
  simp only [updateWeights, List.map_map, h]

/-- C1, evaluated where the code departs from it: the particle `(0, 0, 0)`,
sensor range `1` and the single landmark `(id=1, 0, 0)`, which passes the range
gate; the observation `(DBL_MAX, DBL_MAX)` is not closer to it than the initial
`min_dist` of `dataAssociation`, gets the id `-1` and contributes no factor, so
the weight is `1`, whereas the density of the spec at the only in-range
landmark, the single factor of the product, is less than `1`. -/
theorem C1_sentinel_failing_input :
    inRangeLandmarks (1 : ℝ) { landmark_list := [⟨1, 0, 0⟩] }
        (⟨0, 0, 0, 0, 7, [], [], []⟩ : Particle ℝ) = [⟨1, 0, 0⟩] ∧
    (updateWeights realMath 1 (1, 1) [⟨0, DBL_MAX, DBL_MAX⟩] { landmark_list := [⟨1, 0, 0⟩] }
        { num_particles := 1, is_initialized := true,
          particles := [⟨0, 0, 0, 0, 7, [], [], []⟩] }).particles[0]?
      = some ⟨0, 0, 0, 0, 1, [], [], []⟩ ∧
    specDensity realMath 1 1 (0 + DBL_MAX * Real.cos 0 - DBL_MAX * Real.sin 0)
        (0 + DBL_MAX * Real.sin 0 + DBL_MAX * Real.cos 0) 0 0 < 1 := by
  have hin : inRangeLandmarks (1 : ℝ) { landmark_list := [⟨1, 0, 0⟩] }
      (⟨0, 0, 0, 0, 7, [], [], []⟩ : Particle ℝ) = [⟨1, 0, 0⟩] := by
    rw [inRangeLandmarks_eq]
    norm_num [List.filter_cons]
  refine ⟨hin, ?_, ?_⟩
  · have htr : transformObservations realMath (⟨0, 0, 0, 0, 7, [], [], []⟩ : Particle ℝ)
        [⟨0, DBL_MAX, DBL_MAX⟩] = [⟨0, DBL_MAX, DBL_MAX⟩] := by
      simp [transformObservations_eq, toMapFrame, realMath]
    have hnone := nearest_none realMath ⟨0, DBL_MAX, DBL_MAX⟩ [⟨1, 0, 0⟩] (by
      intro c hc
      rw [List.mem_singleton] at hc
      subst hc
      exact far_corner_not_lt DBL_MAX (le_of_lt DBL_MAX_pos))
    rw [updateWeights_getElem?]
    simp only [List.getElem?_cons_zero, Option.map_some', updateParticle, hin, htr]
    simp [dataAssociation, hnone, weightLoop]
  · have hexp : Real.exp (-((DBL_MAX - 0) ^ 2 / (2 * 1 ^ 2) + (DBL_MAX - 0) ^ 2 / (2 * 1 ^ 2)))
        ≤ 1 := by
      rw [Real.exp_le_one_iff]
      have : (0 : ℝ) ≤ (DBL_MAX - 0) ^ 2 / (2 * 1 ^ 2) := by positivity
      linarith
    have hpi : (1 : ℝ) / (2 * Real.pi * 1 * 1) < 1 := by
      rw [div_lt_one (by positivity)]
      have := Real.pi_gt_three
      linarith
    have hpos : (0 : ℝ) ≤ 1 / (2 * Real.pi * 1 * 1) := by positivity
    simp only [specDensity, realMath, Real.cos_zero, Real.sin_zero, mul_one, mul_zero,
      zero_add, sub_zero, add_zero] at hexp hpi hpos ⊢
    calc 1 / (2 * Real.pi) * Real.exp (-(DBL_MAX ^ 2 / (2 * 1 ^ 2) + DBL_MAX ^ 2 / (2 * 1 ^ 2)))
        ≤ 1 / (2 * Real.pi) * 1 := mul_le_mul_of_nonneg_left hexp hpos
      _ < 1 := by rw [mul_one]; exact hpi

theorem dist_eq_zero_imp (x1 y1 x2 y2 : ℝ) (h : dist realMath x1 y1 x2 y2 ≤ 0) :
    x2 = x1 ∧ y2 = y1 := by
  have h0 : Real.sqrt ((x2 - x1) * (x2 - x1) + (y2 - y1) * (y2 - y1)) = 0 :=
    le_antisymm h (Real.sqrt_nonneg _)
  rw [Real.sqrt_eq_zero'] at h0
  have hx : (x2 - x1) * (x2 - x1) = 0 :=
    le_antisymm (by linarith [mul_self_nonneg (y2 - y1)]) (mul_self_nonneg _)
  have hy : (y2 - y1) * (y2 - y1) = 0 :=
    le_antisymm (by linarith [mul_self_nonneg (x2 - x1)]) (mul_self_nonneg _)
  exact ⟨sub_eq_zero.mp (mul_self_eq_zero.mp hx), sub_eq_zero.mp (mul_self_eq_zero.mp hy)⟩

/-- C9: when the in-range landmarks have pairwise distinct ids and the single
observation, transformed into the map frame with the pose of the particle `p`,
coincides with the position of a map landmark that passes the range gate of
`p`, `updateWeights` sets the weight of `p` to exactly `1/(2*pi*sx*sy)`. -/
theorem C9_peak_density (pf : ParticleFilter ℝ) (sensor_range : ℝ) (std_landmark : ℝ × ℝ)
    (o : LandmarkObs ℝ) (map_landmarks : Map ℝ) (i : Nat) (p : Particle ℝ)
    (lm : single_landmark_s ℝ) (hp : pf.particles[i]? = some p)
    (hid : ((inRangeLandmarks sensor_range map_landmarks p).map (fun l => l.id)).Nodup)
    (hlm : lm ∈ map_landmarks.landmark_list)
    (hgx : |lm.x_f - p.x| ≤ sensor_range) (hgy : |lm.y_f - p.y| ≤ sensor_range)
    (hx : p.x + o.x * Real.cos p.theta - o.y * Real.sin p.theta = lm.x_f)
    (hy : p.y + o.x * Real.sin p.theta + o.y * Real.cos p.theta = lm.y_f) :
    (updateWeights realMath sensor_range std_landmark [o] map_landmarks pf).particles[i]?
      = some { p with weight := 1 / (2 * Real.pi * std_landmark.1 * std_landmark.2) } := by
  have hl : (⟨lm.id_i, lm.x_f, lm.y_f⟩ : LandmarkObs ℝ)
      ∈ inRangeLandmarks sensor_range map_landmarks p := by
    rw [inRangeLandmarks_eq]
    exact List.mem_map.mpr ⟨lm, List.mem_filter.mpr ⟨hlm, decide_eq_true ⟨hgx, hgy⟩⟩, rfl⟩
  have hmx : (toMapFrame realMath p o).x = lm.x_f := hx
  have hmy : (toMapFrame realMath p o).y = lm.y_f := hy
  have hd0 : dist realMath (toMapFrame realMath p o).x (toMapFrame realMath p o).y
      lm.x_f lm.y_f = 0 := by
    rw [hmx, hmy]
    simp [dist, realMath]
  obtain ⟨pick, hpick⟩ := exists_pick realMath (inRangeLandmarks sensor_range map_landmarks p)
    [toMapFrame realMath p o] (by
      intro m hm
      rw [List.mem_singleton] at hm
      subst hm
      exact ⟨_, hl, by rw [hd0]; exact DBL_MAX_pos⟩)
  obtain ⟨hmem, hnear, hmin⟩ := hpick _ (List.mem_singleton_self _)
  have hle := hmin _ hl
  rw [hd0] at hle
  obtain ⟨hpx, hpy⟩ := dist_eq_zero_imp _ _ _ _ hle
  rw [updateWeights_getElem?, hp, Option.map_some']
  simp only [updateParticle]
  rw [transformObservations_eq, List.map_singleton,
    weightLoop_dataAssociation realMath std_landmark _ _ hid pick (by
      intro m hm
      rw [List.mem_singleton] at hm
      subst hm
      exact ⟨hmem, by rw [hnear]⟩)]
  simp only [List.map_singleton, List.prod_singleton, density, hpx, hpy, sub_self, mul_zero,
    zero_div, add_zero, neg_zero]
  simp [realMath]

/-- Witness of C9: one particle at `(0, 0, 0)`, one landmark at `(5, 5)`, the
observation `(5, 5)` in the vehicle frame, sensor range `5` and
`std_landmark = (1, 2)`: the weight is `1/(2*pi*1*2)`. -/
theorem C9_peak_density_witness :
    (updateWeights realMath 5 (1, 2) [⟨0, 5, 5⟩] { landmark_list := [⟨1, 5, 5⟩] }
        { num_particles := 1, is_initialized := true,
          particles := [⟨0, 0, 0, 0, 7, [], [], []⟩] }).particles[0]?
      = some ⟨0, 0, 0, 0, 1 / (2 * Real.pi * 1 * 2), [], [], []⟩ := by
  have hin : inRangeLandmarks (5 : ℝ) { landmark_list := [⟨1, 5, 5⟩] }
      (⟨0, 0, 0, 0, 7, [], [], []⟩ : Particle ℝ) = [⟨1, 5, 5⟩] := by
    rw [inRangeLandmarks_eq]
    norm_num [List.filter_cons]
  exact C9_peak_density
    { num_particles := 1, is_initialized := true,
      particles := [⟨0, 0, 0, 0, 7, [], [], []⟩] }
    5 (1, 2) ⟨0, 5, 5⟩ { landmark_list := [⟨1, 5, 5⟩] } 0 ⟨0, 0, 0, 0, 7, [], [], []⟩
    ⟨1, 5, 5⟩ rfl (by rw [hin]; decide) (by simp) (by norm_num) (by norm_num)
    (by simp) (by simp)

/-- C10: for the particle `p` at index `i`, the association candidates are
exactly the map landmarks with `|l.x - p.x| <= sensor_range` and
`|l.y - p.y| <= sensor_range` (both bounds inclusive), in map order, and the
particle `updateWeights` computes from the full map is the one it computes from
the map without the landmarks that fail this gate. -/
theorem C10_range_gate (pf : ParticleFilter ℝ) (sensor_range : ℝ) (std_landmark : ℝ × ℝ)
    (observations : List (LandmarkObs ℝ)) (map_landmarks : Map ℝ) (i : Nat) (p : Particle ℝ)
    (hp : pf.particles[i]? = some p) :
    inRangeLandmarks sensor_range map_landmarks p
      = (map_landmarks.landmark_list.filter (fun l =>
            decide (|l.x_f - p.x| ≤ sensor_range ∧ |l.y_f - p.y| ≤ sensor_range))).map
          (fun l => { id := l.id_i, x := l.x_f, y := l.y_f }) ∧
    (updateWeights realMath sensor_range std_landmark observations map_landmarks
        pf).particles[i]?
      = (updateWeights realMath sensor_range std_landmark observations
          { landmark_list := map_landmarks.landmark_list.filter (fun l =>
              decide (|l.x_f - p.x| ≤ sensor_range ∧ |l.y_f - p.y| ≤ sensor_range)) }
          pf).particles[i]? := by
  refine ⟨inRangeLandmarks_eq sensor_range map_landmarks p, ?_⟩
  have hsame : inRangeLandmarks sensor_range
      { landmark_list := map_landmarks.landmark_list.filter (fun l =>
          decide (|l.x_f - p.x| ≤ sensor_range ∧ |l.y_f - p.y| ≤ sensor_range)) } p
      = inRangeLandmarks sensor_range map_landmarks p := by
    rw [inRangeLandmarks_eq, inRangeLandmarks_eq, List.filter_filter]
    simp
  rw [updateWeights_getElem?, updateWeights_getElem?, hp, Option.map_some', Option.map_some']
  simp only [updateParticle, hsame]

/-- Witness of C10: the particle `(0, 0, 0)` with sensor range `1`; the
landmark `(1, 1)`, at Euclidean distance `sqrt 2 > 1`, is a candidate (the gate
is the square, not the disc), the landmark `(2, 0)` is not, and the weight is
the one computed from the map that holds `(1, 1)` only. -/
theorem C10_range_gate_witness :
    inRangeLandmarks (1 : ℝ) { landmark_list := [⟨7, 1, 1⟩, ⟨8, 2, 0⟩] }
        (⟨0, 0, 0, 0, 7, [], [], []⟩ : Particle ℝ) = [⟨7, 1, 1⟩] ∧
    1 < dist realMath 0 0 1 1 ∧
    (updateWeights realMath 1 (1, 1) [⟨0, 1, 0⟩]
        { landmark_list := [⟨7, 1, 1⟩, ⟨8, 2, 0⟩] }
        { num_particles := 1, is_initialized := true,
          particles := [⟨0, 0, 0, 0, 7, [], [], []⟩] }).particles[0]?
      = (updateWeights realMath 1 (1, 1) [⟨0, 1, 0⟩] { landmark_list := [⟨7, 1, 1⟩] }
          { num_particles := 1, is_initialized := true,
            particles := [⟨0, 0, 0, 0, 7, [], [], []⟩] }).particles[0]? := by
  have hf : ([⟨7, 1, 1⟩, ⟨8, 2, 0⟩] : List (single_landmark_s ℝ)).filter (fun l =>
      decide (|l.x_f - 0| ≤ 1 ∧ |l.y_f - 0| ≤ 1)) = [⟨7, 1, 1⟩] := by
    norm_num [List.filter_cons]
  have h := C10_range_gate
    { num_particles := 1, is_initialized := true,
      particles := [⟨0, 0, 0, 0, 7, [], [], []⟩] }
    1 (1, 1) [⟨0, 1, 0⟩] { landmark_list := [⟨7, 1, 1⟩, ⟨8, 2, 0⟩] } 0
    ⟨0, 0, 0, 0, 7, [], [], []⟩ rfl
  simp only [hf] at h
  refine ⟨by simpa using h.1, ?_, h.2⟩
  have : Real.sqrt 1 < Real.sqrt ((1 - 0) * (1 - 0) + (1 - 0) * (1 - 0)) :=
    Real.sqrt_lt_sqrt (by norm_num) (by norm_num)
  simpa [dist, realMath] using this

/-! ## Ties and the empty candidate list -/

theorem dist_not_lt_of_sq_le (x1 y1 x2 y2 D : ℝ) (hD : 0 ≤ D)
    (h : D ^ 2 ≤ (x2 - x1) * (x2 - x1) + (y2 - y1) * (y2 - y1)) :
    ¬ dist realMath x1 y1 x2 y2 < D := by
  have hle : D ≤ Real.sqrt ((x2 - x1) * (x2 - x1) + (y2 - y1) * (y2 - y1)) := by
    rw [Real.le_sqrt hD (le_trans (sq_nonneg D) h)]
    exact h
  exact not_lt.mpr hle

/-- C11, evaluated where the code departs from it: the candidates
`(id=1, DBL_MAX, DBL_MAX)` and `(id=2, -DBL_MAX, -DBL_MAX)` are at the same,
minimal, distance from the observation `(0, 0)`, which is not less than the
initial `min_dist`; the id assigned is `-1`, not the id `1` of the first of
them. -/
theorem C11_sentinel_failing_input :
    dist realMath 0 0 DBL_MAX DBL_MAX = dist realMath 0 0 (-DBL_MAX) (-DBL_MAX) ∧
    dataAssociation realMath [⟨1, DBL_MAX, DBL_MAX⟩, ⟨2, -DBL_MAX, -DBL_MAX⟩] [⟨0, 0, 0⟩]
      = [⟨-1, 0, 0⟩] ∧
    (dataAssociation realMath [⟨1, DBL_MAX, DBL_MAX⟩, ⟨2, -DBL_MAX, -DBL_MAX⟩]
      [⟨0, 0, 0⟩]).map (fun r => r.id) ≠ [1] := by
  have hD : (0 : ℝ) ≤ DBL_MAX := le_of_lt DBL_MAX_pos
  have h := nearest_none realMath ⟨0, 0, 0⟩ [⟨1, DBL_MAX, DBL_MAX⟩, ⟨2, -DBL_MAX, -DBL_MAX⟩] (by
    intro c hc
    simp only [List.mem_cons, List.mem_singleton, List.not_mem_nil, or_false] at hc
    rcases hc with rfl | rfl
    · exact dist_not_lt_of_sq_le 0 0 DBL_MAX DBL_MAX DBL_MAX hD (by nlinarith)
    · exact dist_not_lt_of_sq_le 0 0 (-DBL_MAX) (-DBL_MAX) DBL_MAX hD (by nlinarith))
  have hres : dataAssociation realMath [⟨1, DBL_MAX, DBL_MAX⟩, ⟨2, -DBL_MAX, -DBL_MAX⟩]
      [⟨0, 0, 0⟩] = [⟨-1, 0, 0⟩] := by
    simp [dataAssociation, h]
  refine ⟨?_, hres, ?_⟩
  · simp [dist]
  · rw [hres]
    decide

/-- C12 (amended): with an empty candidate list `dataAssociation` keeps every
observation's position and sets its id to `-1`, the initial value of `min_id`,
whatever the id was before the call. -/
theorem C12_empty_candidates (observations : List (LandmarkObs ℝ)) :
    dataAssociation realMath [] observations
      = observations.map (fun o => { id := -1, x := o.x, y := o.y }) := by
  simp [dataAssociation, nearest]

/-- Counterexample to C12 as stated: with no candidate, the observation of id
`7` at `(1, 1)` has id `-1` after the call. -/
theorem C12_counterexample :
    dataAssociation realMath [] [⟨7, 1, 1⟩] = [⟨-1, 1, 1⟩] ∧
    (dataAssociation realMath [] [⟨7, 1, 1⟩]).map (fun r => r.id)
      ≠ ([⟨7, 1, 1⟩] : List (LandmarkObs ℝ)).map (fun o => o.id) := by
  have h : dataAssociation realMath [] [⟨7, 1, 1⟩] = [⟨-1, 1, 1⟩] := by
    simp [dataAssociation, nearest]
  refine ⟨h, ?_⟩
  rw [h]
  decide

/-! ## Association fields and the frame of `updateWeights` -/

theorem updateParticle_fields [LinearOrderedField α] (M : MathLib α) (sensor_range : α)
    (std_landmark : α × α) (observations : List (LandmarkObs α)) (map_landmarks : Map α)
    (p : Particle α) :
    (updateParticle M sensor_range std_landmark observations map_landmarks p).id = p.id ∧
    (updateParticle M sensor_range std_landmark observations map_landmarks p).x = p.x ∧
    (updateParticle M sensor_range std_landmark observations map_landmarks p).y = p.y ∧
    (updateParticle M sensor_range std_landmark observations map_landmarks p).theta
      = p.theta ∧
    (updateParticle M sensor_range std_landmark observations map_landmarks p).associations
      = p.associations ∧
    (updateParticle M sensor_range std_landmark observations map_landmarks p).sense_x
      = p.sense_x ∧
    (updateParticle M sensor_range std_landmark observations map_landmarks p).sense_y
      = p.sense_y :=
  ⟨rfl, rfl, rfl, rfl, rfl, rfl, rfl⟩

/-- C13 (amended): `updateWeights` leaves the `associations`, `sense_x` and
`sense_y` of every particle as they were before the call; in particular after
`init` on a fresh filter and one `updateWeights` the three fields of every
particle are empty, whatever was matched. -/
theorem C13_associations_untouched (pf : ParticleFilter ℝ) (sensor_range : ℝ)
    (std_landmark : ℝ × ℝ) (observations : List (LandmarkObs ℝ)) (map_landmarks : Map ℝ)
    (x y theta : ℝ) (std : ℝ × ℝ × ℝ) (draws : Nat → ℝ × ℝ × ℝ) :
    (updateWeights realMath sensor_range std_landmark observations map_landmarks
        pf).particles.map (fun p => (p.associations, p.sense_x, p.sense_y))
      = pf.particles.map (fun p => (p.associations, p.sense_x, p.sense_y)) ∧
    ∀ q ∈ (updateWeights realMath sensor_range std_landmark observations map_landmarks
        (init x y theta std draws fresh)).particles,
      q.associations = [] ∧ q.sense_x = [] ∧ q.sense_y = [] := by
  constructor
  · simp only [updateWeights, List.map_map]
    rfl
  · intro q hq
    simp only [updateWeights, init_particles, fresh, List.nil_append, List.map_map,
      List.mem_map] at hq
    obtain ⟨n, -, rfl⟩ := hq
    exact ⟨rfl, rfl, rfl⟩

/-- Counterexample to C13 as stated: the particle `(0, 0, 0)` with empty
association fields, the landmark `(id=1, 5, 5)` and the observation `(5, 5)`:
the observation is matched to the landmark of id `1` at map-frame position
`(5, 5)`, but after `updateWeights` the three fields of the particle are still
empty. -/
theorem C13_counterexample :
    dataAssociation realMath
        (inRangeLandmarks (5 : ℝ) { landmark_list := [⟨1, 5, 5⟩] }
          (⟨0, 0, 0, 0, 1, [], [], []⟩ : Particle ℝ))
        (transformObservations realMath ⟨0, 0, 0, 0, 1, [], [], []⟩ [⟨0, 5, 5⟩])
      = [⟨1, 5, 5⟩] ∧
    ((updateWeights realMath 5 (1, 1) [⟨0, 5, 5⟩] { landmark_list := [⟨1, 5, 5⟩] }
        { num_particles := 1, is_initialized := true,
          particles := [⟨0, 0, 0, 0, 1, [], [], []⟩] }).particles[0]?).map
        (fun q => (q.associations, q.sense_x, q.sense_y))
      = some ([], [], []) := by
  have hin : inRangeLandmarks (5 : ℝ) { landmark_list := [⟨1, 5, 5⟩] }
      (⟨0, 0, 0, 0, 1, [], [], []⟩ : Particle ℝ) = [⟨1, 5, 5⟩] := by
    rw [inRangeLandmarks_eq]
    norm_num [List.filter_cons]
  have htr : transformObservations realMath (⟨0, 0, 0, 0, 1, [], [], []⟩ : Particle ℝ)
      [⟨0, 5, 5⟩] = [⟨0, 5, 5⟩] := by
    simp [transformObservations_eq, toMapFrame, realMath]
  constructor
  · rw [hin, htr]
    obtain ⟨c, hc, heq, -⟩ := nearest_found realMath ⟨0, 5, 5⟩ [⟨1, 5, 5⟩]
      ⟨⟨1, 5, 5⟩, by simp, by simpa [dist, realMath] using DBL_MAX_pos⟩
    rw [List.mem_singleton] at hc
    subst hc
    simp [dataAssociation, heq]
  · rw [updateWeights_getElem?]
    rfl

/-- `SetAssociations` called with three vectors that are no members of the
particle: the particle ends with the three lists, its other fields are kept,
and the value returned equals the updated particle. -/
theorem SetAssociations_other (particle : Particle ℝ) (associations : List Int)
    (sense_x sense_y : List ℝ) :
    (SetAssociations particle (.other associations) (.other sense_x) (.other sense_y)).1
      = { particle with
          associations := associations, sense_x := sense_x, sense_y := sense_y } ∧
    (SetAssociations particle (.other associations) (.other sense_x) (.other sense_y)).2
      = (SetAssociations particle (.other associations) (.other sense_x)
          (.other sense_y)).1 :=
  ⟨rfl, rfl⟩

/-- C15, evaluated where the code departs from it: `SetAssociations` called on
a particle with its own `associations = [4]`, `sense_x = [5]`, `sense_y = [6]`
as the three arguments; the lists given are `[4]`, `[5]`, `[6]`, the `clear()`
calls empty them before they are assigned, and the particle ends with three
empty lists (its id, x, y, theta and weight are kept, and the value returned
equals the updated particle). -/
theorem C15_aliasing_failing_input :
    IntVectorRef.deref .own_associations (⟨0, 1, 2, 3, 1, [4], [5], [6]⟩ : Particle ℝ)
      = [4] ∧
    DoubleVectorRef.deref .own_sense_x (⟨0, 1, 2, 3, 1, [4], [5], [6]⟩ : Particle ℝ)
      = [5] ∧
    DoubleVectorRef.deref .own_sense_y (⟨0, 1, 2, 3, 1, [4], [5], [6]⟩ : Particle ℝ)
      = [6] ∧
    (SetAssociations (⟨0, 1, 2, 3, 1, [4], [5], [6]⟩ : Particle ℝ)
        .own_associations .own_sense_x .own_sense_y).1
      = ⟨0, 1, 2, 3, 1, [], [], []⟩ ∧
    (SetAssociations (⟨0, 1, 2, 3, 1, [4], [5], [6]⟩ : Particle ℝ)
        .own_associations .own_sense_x .own_sense_y).2
      = ⟨0, 1, 2, 3, 1, [], [], []⟩ :=
  ⟨rfl, rfl, rfl, rfl, rfl⟩

/-- C18: `updateWeights` keeps the number and the order of the particles and
each particle's id, x, y, theta, associations, sense_x and sense_y; together
with `num_particles` and `is_initialized`, only the weights can differ. -/
theorem C18_updateWeights_frame (pf : ParticleFilter ℝ) (sensor_range : ℝ)
    (std_landmark : ℝ × ℝ) (observations : List (LandmarkObs ℝ)) (map_landmarks : Map ℝ) :
    (updateWeights realMath sensor_range std_landmark observations map_landmarks
        pf).particles.length = pf.particles.length ∧
    (updateWeights realMath sensor_range std_landmark observations map_landmarks
        pf).particles.map
        (fun p => (p.id, p.x, p.y, p.theta, p.associations, p.sense_x, p.sense_y))
      = pf.particles.map
        (fun p => (p.id, p.x, p.y, p.theta, p.associations, p.sense_x, p.sense_y)) ∧
    (∀ (i : Nat) (p : Particle ℝ), pf.particles[i]? = some p →
      ∃ w, (updateWeights realMath sensor_range std_landmark observations map_landmarks
        pf).particles[i]? = some { p with weight := w }) ∧
    (updateWeights realMath sensor_range std_landmark observations map_landmarks
        pf).num_particles = pf.num_particles ∧
    (updateWeights realMath sensor_range std_landmark observations map_landmarks
        pf).is_initialized = pf.is_initialized := by
  refine ⟨updateWeights_length _ _ _ _ _ _, ?_, ?_, rfl, rfl⟩
  · simp only [updateWeights, List.map_map]
    rfl
  · intro i p hp
    rw [updateWeights_getElem?, hp]
    exact ⟨_, rfl⟩

/-! ## Sign of the weights -/

theorem density_pos (std_landmark : ℝ × ℝ) (o l : LandmarkObs ℝ)
    (hsx : 0 < std_landmark.1) (hsy : 0 < std_landmark.2) :
    0 < density realMath std_landmark o l := by
  have hpi := Real.pi_pos
  simp only [density, realMath]
  exact mul_pos (by positivity) (Real.exp_pos _)

theorem updateParticle_weight_pos (sensor_range : ℝ) (std_landmark : ℝ × ℝ)
    (observations : List (LandmarkObs ℝ)) (map_landmarks : Map ℝ) (p : Particle ℝ)
    (hsx : 0 < std_landmark.1) (hsy : 0 < std_landmark.2) :
    0 < (updateParticle realMath sensor_range std_landmark observations map_landmarks
      p).weight := by
  simp only [updateParticle]
  rw [weightLoop_eq]
  apply List.prod_pos
  intro a ha
  obtain ⟨o, -, rfl⟩ := List.mem_map.mp ha
  apply List.prod_pos
  intro b hb
  obtain ⟨l, -, rfl⟩ := List.mem_map.mp hb
  exact density_pos std_landmark o l hsx hsy

/-- C14: after `init` every weight is `1`; after `updateWeights` with
`std_landmark[0] > 0` and `std_landmark[1] > 0` every particle's weight is
strictly positive, whatever the population, the observations and the map, so
the total weight of a non-empty population is not zero. -/
theorem C14_weights_positive (x y theta : ℝ) (std : ℝ × ℝ × ℝ) (draws : Nat → ℝ × ℝ × ℝ)
    (pf : ParticleFilter ℝ) (sensor_range : ℝ) (std_landmark : ℝ × ℝ)
    (observations : List (LandmarkObs ℝ)) (map_landmarks : Map ℝ)
    (hsx : 0 < std_landmark.1) (hsy : 0 < std_landmark.2) :
    (∀ p ∈ (init x y theta std draws fresh).particles, p.weight = 1) ∧
    (∀ p ∈ (updateWeights realMath sensor_range std_landmark observations map_landmarks
        pf).particles, 0 < p.weight) ∧
    (pf.particles ≠ [] →
      0 < ((updateWeights realMath sensor_range std_landmark observations map_landmarks
        pf).particles.map (fun p => p.weight)).sum) := by
  have hpos : ∀ p ∈ (updateWeights realMath sensor_range std_landmark observations
      map_landmarks pf).particles, 0 < p.weight := by
    intro q hq
    simp only [updateWeights, List.mem_map] at hq
    obtain ⟨p, -, rfl⟩ := hq
    exact updateParticle_weight_pos sensor_range std_landmark observations map_landmarks p
      hsx hsy
  refine ⟨?_, hpos, ?_⟩
  · intro p hmem
    rw [init_particles] at hmem
    simp only [fresh, List.nil_append, List.mem_map] at hmem
    obtain ⟨n, -, rfl⟩ := hmem
    rfl
  · intro hne
    apply List.sum_pos
    · intro w hw
      obtain ⟨q, hq, rfl⟩ := List.mem_map.mp hw
      exact hpos q hq
    · simpa [updateWeights] using hne

/-- Witness of C14: `std_landmark = (1, 2)`, the particle `(0, 0, 0)`, the
landmark `(id=1, 5, 5)` and the observation `(4, 4)`. -/
theorem C14_weights_positive_witness :
    (∀ p ∈ (init (0 : ℝ) 0 0 (1, 1, 1) (fun _ => (0, 0, 0)) fresh).particles,
      p.weight = 1) ∧
    (∀ p ∈ (updateWeights realMath 5 (1, 2) [⟨0, 4, 4⟩] { landmark_list := [⟨1, 5, 5⟩] }
        { num_particles := 1, is_initialized := true,
          particles := [⟨0, 0, 0, 0, 7, [], [], []⟩] }).particles, 0 < p.weight) ∧
    ((([⟨0, 0, 0, 0, 7, [], [], []⟩] : List (Particle ℝ))) ≠ [] →
      0 < ((updateWeights realMath 5 (1, 2) [⟨0, 4, 4⟩] { landmark_list := [⟨1, 5, 5⟩] }
        { num_particles := 1, is_initialized := true,
          particles := [⟨0, 0, 0, 0, 7, [], [], []⟩] }).particles.map
            (fun p => p.weight)).sum) :=
  C14_weights_positive 0 0 0 (1, 1, 1) (fun _ => (0, 0, 0))
    { num_particles := 1, is_initialized := true,
      particles := [⟨0, 0, 0, 0, 7, [], [], []⟩] }
    5 (1, 2) [⟨0, 4, 4⟩] { landmark_list := [⟨1, 5, 5⟩] } one_pos two_pos

/-! ## Dependence of the weights on the observation list -/

theorem dataAssociation_transform_eq [LinearOrderedField α] (M : MathLib α)
    (cands : List (LandmarkObs α)) (p : Particle α) (observations : List (LandmarkObs α)) :
    dataAssociation M cands (transformObservations M p observations)
      = observations.map (fun o =>
          { id := (nearest M cands (toMapFrame M p o)).2,
            x := (toMapFrame M p o).x, y := (toMapFrame M p o).y }) := by
  rw [transformObservations_eq]
  unfold dataAssociation
  rw [List.map_map]
  rfl

/-- C19: two observation lists of equal length that agree position by position
on `x` and `y`, whatever their ids, give the same population after
`updateWeights`, hence the same weight for every particle. -/
theorem C19_observation_ids_irrelevant (pf : ParticleFilter ℝ) (sensor_range : ℝ)
    (std_landmark : ℝ × ℝ) (obs1 obs2 : List (LandmarkObs ℝ)) (map_landmarks : Map ℝ)
    (h : obs1.map (fun o => (o.x, o.y)) = obs2.map (fun o => (o.x, o.y))) :
    updateWeights realMath sensor_range std_landmark obs1 map_landmarks pf
      = updateWeights realMath sensor_range std_landmark obs2 map_landmarks pf := by
  have key : ∀ p : Particle ℝ,
      dataAssociation realMath (inRangeLandmarks sensor_range map_landmarks p)
          (transformObservations realMath p obs1)
        = dataAssociation realMath (inRangeLandmarks sensor_range map_landmarks p)
          (transformObservations realMath p obs2) := by
    intro p
    have hfac : ∀ obs : List (LandmarkObs ℝ),
        dataAssociation realMath (inRangeLandmarks sensor_range map_landmarks p)
            (transformObservations realMath p obs)
          = (obs.map (fun o => (o.x, o.y))).map (fun xy : ℝ × ℝ =>
              ({ id := (nearest realMath (inRangeLandmarks sensor_range map_landmarks p)
                    (toMapFrame realMath p ⟨0, xy.1, xy.2⟩)).2,
                 x := (toMapFrame realMath p ⟨0, xy.1, xy.2⟩).x,
                 y := (toMapFrame realMath p ⟨0, xy.1, xy.2⟩).y } : LandmarkObs ℝ)) := by
      intro obs
      rw [dataAssociation_transform_eq, List.map_map]
      rfl
    rw [hfac obs1, hfac obs2, h]
  have hfun : updateParticle realMath sensor_range std_landmark obs1 map_landmarks
      = updateParticle realMath sensor_range std_landmark obs2 map_landmarks := by
    funext p
    simp only [updateParticle, key p]
  simp only [updateWeights, hfun]

/-- Witness of C19: the observation `(5, 5)` with id `7` and with id `-3`. -/
theorem C19_observation_ids_irrelevant_witness :
    updateWeights realMath 5 (1, 1) [⟨7, 5, 5⟩] { landmark_list := [⟨1, 5, 5⟩] }
        { num_particles := 1, is_initialized := true,
          particles := [⟨0, 0, 0, 0, 7, [], [], []⟩] }
      = updateWeights realMath 5 (1, 1) [⟨-3, 5, 5⟩] { landmark_list := [⟨1, 5, 5⟩] }
        { num_particles := 1, is_initialized := true,
          particles := [⟨0, 0, 0, 0, 7, [], [], []⟩] } :=
  C19_observation_ids_irrelevant
    { num_particles := 1, is_initialized := true,
      particles := [⟨0, 0, 0, 0, 7, [], [], []⟩] }
    5 (1, 1) [⟨7, 5, 5⟩] [⟨-3, 5, 5⟩] { landmark_list := [⟨1, 5, 5⟩] } rfl

/-- C20: an observation list and any permutation of it give the same population
after `updateWeights`, hence the same weight for every particle, for every map,
sensor range and `std_landmark`. -/
theorem C20_observation_order_irrelevant (pf : ParticleFilter ℝ) (sensor_range : ℝ)
    (std_landmark : ℝ × ℝ) (obs1 obs2 : List (LandmarkObs ℝ)) (map_landmarks : Map ℝ)
    (h : obs1.Perm obs2) :
    updateWeights realMath sensor_range std_landmark obs1 map_landmarks pf
      = updateWeights realMath sensor_range std_landmark obs2 map_landmarks pf := by
  have key : ∀ p : Particle ℝ,
      updateParticle realMath sensor_range std_landmark obs1 map_landmarks p
        = updateParticle realMath sensor_range std_landmark obs2 map_landmarks p := by
    intro p
    simp only [updateParticle]
    rw [weightLoop_eq, weightLoop_eq, dataAssociation_transform_eq,
      dataAssociation_transform_eq, List.map_map, List.map_map]
    rw [(h.map _).prod_eq]
  have hfun : updateParticle realMath sensor_range std_landmark obs1 map_landmarks
      = updateParticle realMath sensor_range std_landmark obs2 map_landmarks := funext key
  simp only [updateWeights, hfun]

/-- Witness of C20: the observations `(5, 5)`, `(1, 0)` in both orders. -/
theorem C20_observation_order_irrelevant_witness :
    updateWeights realMath 5 (1, 1) [⟨0, 5, 5⟩, ⟨0, 1, 0⟩]
        { landmark_list := [⟨1, 5, 5⟩, ⟨2, 0, 0⟩] }
        { num_particles := 1, is_initialized := true,
          particles := [⟨0, 0, 0, 0, 7, [], [], []⟩] }
      = updateWeights realMath 5 (1, 1) [⟨0, 1, 0⟩, ⟨0, 5, 5⟩]
        { landmark_list := [⟨1, 5, 5⟩, ⟨2, 0, 0⟩] }
        { num_particles := 1, is_initialized := true,
          particles := [⟨0, 0, 0, 0, 7, [], [], []⟩] } :=
  C20_observation_order_irrelevant
    { num_particles := 1, is_initialized := true,
      particles := [⟨0, 0, 0, 0, 7, [], [], []⟩] }
    5 (1, 1) [⟨0, 5, 5⟩, ⟨0, 1, 0⟩] [⟨0, 1, 0⟩, ⟨0, 5, 5⟩]
    { landmark_list := [⟨1, 5, 5⟩, ⟨2, 0, 0⟩] } (List.Perm.swap _ _ _)

/-! ## Gaussian falloff -/

end KidnappedVehicle
